import Mathlib

/-!
Shallow embedding of `src/dashboard.py` (ECOv2 stability-data dashboard).

A pandas dataframe is modelled as a `List` of rows.  A nullable cell (pandas
NaN / NA / NaT) is modelled as an `Option`; numeric cells are `ℚ`.  The
comment above each definition names the Python function or callback it embeds.
The `Timestamp` column derived in `ensure_columns` is carried by no claim and
read by no downstream code, so it is not reproduced in the row type; its
derivation (`pd.to_datetime(..., errors="coerce")`) can never raise.
-/

namespace ECOv2

/-- `METRICS = ["HGO", "LGO", "LTC", "RAW", "VMain"]` from the CONFIG block. -/
def METRICS : List String := ["HGO", "LGO", "LTC", "RAW", "VMain"]

/-- One normalized row, as produced by `ensure_columns`:
`SerialID` (trimmed string), `Channel` (nullable Int64), `X = SampleCount`
(nullable numeric), and the five metric columns (nullable numerics). -/
structure Row where
  serial : String
  channel : Option Int
  x : Option ℚ
  hgo : Option ℚ := none
  lgo : Option ℚ := none
  ltc : Option ℚ := none
  raw : Option ℚ := none
  vmain : Option ℚ := none
deriving DecidableEq, Repr

/-- Column lookup `df[metric]` for a metric name from the `METRICS` dropdown. -/
def Row.getMetric (r : Row) (m : String) : Option ℚ :=
  if m = "HGO" then r.hgo
  else if m = "LGO" then r.lgo
  else if m = "LTC" then r.ltc
  else if m = "RAW" then r.raw
  else if m = "VMain" then r.vmain
  else none

/-- A row together with the `RunIndex` column added by `add_run_index`.
`RunIndex` is nullable: pandas `groupby` drops null keys, so a row whose
`Channel` is null receives NaN in the cumulative-sum result. -/
structure RRow extends Row where
  runIndex : Option Nat
deriving DecidableEq, Repr

/-- A nullable sort key.  `df.sort_values` places NaN last (`na_position`
defaults to `"last"`), which is exactly the `WithTop` order (`⊤` greatest). -/
def owt {α : Type} (o : Option α) : WithTop α :=
  match o with
  | none => ⊤
  | some a => (a : WithTop α)

/-- The lexicographic sort key of `df.sort_values(["SerialID", "Channel", "X"])`:
serial ascending, then channel with nulls last, then x with nulls last.
Python compares strings by code point, which is the lexicographic order on the
character list, so the serial is keyed by `String.data`. -/
def sortKey (r : Row) : Lex (List Char × Lex (WithTop Int × WithTop ℚ)) :=
  toLex (r.serial.data, toLex (owt r.channel, owt r.x))

/-- Row comparison used by the sort. -/
def rowLe (a b : Row) : Prop := sortKey a ≤ sortKey b

instance : DecidableRel rowLe :=
  fun a b => inferInstanceAs (Decidable (sortKey a ≤ sortKey b))

instance : IsTotal Row rowLe := ⟨fun a b => le_total (sortKey a) (sortKey b)⟩

instance : IsTrans Row rowLe := ⟨fun _ _ _ h h' => le_trans h h'⟩

/-- `df.sort_values(["SerialID", "Channel", "X"], kind="mergesort")`.
Mergesort and insertion sort are both stable, and two stable sorts by the same
total preorder agree on every input, so insertion sort models the source's
stable mergesort exactly. -/
def sortRows (l : List Row) : List Row := l.insertionSort rowLe

/-- The per-row contribution of `.diff().fillna(1).lt(0)`: `1` when the first
difference of `X` against the previous row of the same group is negative, else
`0`.  A null difference (first row of a group, or a null `X` on either side)
is filled with the sentinel `1`, which is not `< 0`: no boundary. -/
def bval (px x : Option ℚ) : Nat :=
  match px, x with
  | some p, some c => if c < p then 1 else 0
  | _, _ => 0

/-- The grouped diff/cumsum of `add_run_index`, walked over the sorted rows.
After the sort, the rows of each `(SerialID, Channel)` group are contiguous,
so the pandas groupby diff/cumsum reduces to this scan: the counter restarts
at every key change and otherwise adds `bval` of the consecutive `X` values
(`.cumsum()` includes the current row's boundary flag).  A null-channel row is
dropped by `groupby` (`dropna` defaults to true) and ends with a NaN
(`none`) run index. -/
def runScan : Option Row → Nat → List Row → List RRow
  | _, _, [] => []
  | prev, cnt, r :: rs =>
    let cnt' : Nat :=
      match prev with
      | none => 0
      | some p =>
        if p.serial = r.serial ∧ p.channel = r.channel then cnt + bval p.x r.x
        else 0
    { toRow := r, runIndex := if r.channel.isSome then some cnt' else none }
      :: runScan (some r) cnt' rs

/-- `add_run_index(df)` from `src/dashboard.py`. -/
def add_run_index (df : List Row) : List RRow :=
  runScan none 0 (sortRows df)

/-- Maximum of a list of naturals, `⊥` for the empty list. -/
def maxRun : List Nat → WithBot Nat
  | [] => ⊥
  | a :: l => max (a : WithBot Nat) (maxRun l)

/-- `df.groupby(["SerialID", "Channel"])["RunIndex"].transform("max")` for one
row key: the maximum run index over the rows of the `(serial, channel)` group,
skipping nulls (`max` has `skipna` behaviour); `⊥` (NaN) when the group has no
non-null run index, in which case the comparison below is `NaN == x`, false. -/
def latestOf (df : List RRow) (s : String) (c : Option Int) : WithBot Nat :=
  maxRun ((df.filter fun r' => decide (r'.serial = s ∧ r'.channel = c)).filterMap
    fun r' => r'.runIndex)

/-- The row predicate of `df[df["RunIndex"] == latest]`.  A null-channel row is
outside every group, so its transform result is NaN and `NaN == x` is false; a
null `RunIndex` compares false against everything as well. -/
def keepPred (df : List RRow) (r : RRow) : Bool :=
  match r.channel, r.runIndex with
  | some _, some ri => decide (latestOf df r.serial r.channel = (ri : WithBot Nat))
  | _, _ => false

/-- `keep_latest_run_only(df)` from `src/dashboard.py`: keep the rows whose
`RunIndex` equals their group's transform-max. -/
def keep_latest_run_only (df : List RRow) : List RRow :=
  df.filter (keepPred df)

/-! ### The `update_plot` callback -/

/-- Python string `≤` (code-point lexicographic), used by `sorted(...)`. -/
def strLe (a b : String) : Prop := a.data ≤ b.data

instance : DecidableRel strLe :=
  fun a b => inferInstanceAs (Decidable (a.data ≤ b.data))

instance : IsTotal String strLe := ⟨fun a b => le_total a.data b.data⟩

instance : IsTrans String strLe := ⟨fun _ _ _ h h' => le_trans h h'⟩

/-- `sorted(df["SerialID"].unique())`: distinct serials, ascending. -/
def sortedSerials (l : List String) : List String :=
  l.dedup.insertionSort strLe

/-- One `fig.add_scatter` call.  The coordinate payload of a scatter trace is
not inspected by any claim; a trace is identified by the serial it was drawn
for, the subplot row it was placed in, which of the four `add_scatter` calls
produced it, and its `showlegend` flag. -/
inductive TraceKind where
  | rawSeries : TraceKind
  | meanLine : TraceKind
  | sigmaPlus : TraceKind
  | sigmaMinus : TraceKind
deriving DecidableEq, Repr

structure Trace where
  serial : String
  panel : Nat
  kind : TraceKind
  showlegend : Bool
deriving DecidableEq, Repr

/-- The figure plus the two text outputs of `update_plot`. -/
structure PlotOut where
  traces : List Trace
  label : String
  warning : String
deriving DecidableEq, Repr

/-- `f"⚠️ No data for: {', '.join(missing)}"`. -/
def warnOf (missing : List String) : String :=
  "⚠️ No data for: " ++ String.intercalate ", " missing

/-- `df["X"] <= top_n` for one cell: a NaN comparison is false in pandas. -/
def xLeB (x : Option ℚ) (t : ℚ) : Bool :=
  match x with
  | some v => decide (v ≤ t)
  | none => false

/-- `df["X"] > top_n` for one cell: a NaN comparison is false in pandas. -/
def xGtB (x : Option ℚ) (t : ℚ) : Bool :=
  match x with
  | some v => decide (t < v)
  | none => false

/-- `df = df[df["SerialID"].isin(serials)]`. -/
def selFilter (df : List RRow) (serials : List String) : List RRow :=
  df.filter fun r => decide (r.serial ∈ serials)

/-- `df_top = df[df["X"] <= top_n]` (after the `isin` restriction). -/
def topPanel (df : List RRow) (serials : List String) (topN : ℚ) : List RRow :=
  (selFilter df serials).filter fun r => xLeB r.x topN

/-- `df_bot = df[df["X"] > top_n]` (after the `isin` restriction). -/
def botPanel (df : List RRow) (serials : List String) (topN : ℚ) : List RRow :=
  (selFilter df serials).filter fun r => xGtB r.x topN

/-- The loop body for one serial in one panel.  `g` is
`row_df[row_df["SerialID"] == s]`; an empty `g` is skipped (`continue`).
Otherwise the raw series and the mean line are always added with
`showlegend=(row_idx == 1)`, and the two `±σ` lines are added exactly when
`pd.notna(g[metric].std(ddof=1))`: the sample standard deviation is computed
over the non-null values of `g[metric]` (`skipna`), and is NaN precisely when
fewer than two non-null values exist (for two or more it is the square root of
a non-negative rational, always a number). -/
def tracesForSerial (g : List RRow) (metric : String) (s : String) (panel : Nat) :
    List Trace :=
  if g.isEmpty then []
  else
    let leg := decide (panel = 1)
    let obs := g.filterMap fun r => Row.getMetric r.toRow metric
    let base := [⟨s, panel, TraceKind.rawSeries, leg⟩, ⟨s, panel, TraceKind.meanLine, leg⟩]
    if 2 ≤ obs.length then
      base ++ [⟨s, panel, TraceKind.sigmaPlus, false⟩, ⟨s, panel, TraceKind.sigmaMinus, false⟩]
    else base

/-- The inner `for s in serials` loop over one panel's dataframe. -/
def panelTraces (rowDf : List RRow) (serials : List String) (metric : String)
    (panel : Nat) : List Trace :=
  (serials.map fun s =>
    tracesForSerial (rowDf.filter fun r => decide (r.serial = s)) metric s panel).flatten

/-- The `for row_df, row_idx in [(df_top, 1), (df_bot, 2)]` double loop. -/
def buildFigure (df : List RRow) (serials : List String) (metric : String)
    (topN : ℚ) : List Trace :=
  panelTraces (topPanel df serials topN) serials metric 1 ++
    panelTraces (botPanel df serials topN) serials metric 2

/-- `sorted(df["SerialID"].unique())` over the latest-run-filtered dataset. -/
def allSerialsOf (df0 : List RRow) : List String :=
  sortedSerials ((keep_latest_run_only df0).map fun r => r.serial)

/-- `valid = [s for s in compare_serials if s in all_serials]`. -/
def validOf (df0 : List RRow) (compare : List String) : List String :=
  compare.filter fun s => decide (s ∈ allSerialsOf df0)

/-- `missing = [s for s in compare_serials if s not in all_serials]`. -/
def missingOf (df0 : List RRow) (compare : List String) : List String :=
  compare.filter fun s => decide (s ∉ allSerialsOf df0)

/-- The `update_plot` callback.  `data` is the stored dataset (`None` before
any upload; `pd.read_json` of the stored JSON is the identity on the modelled
rows).  `compare_serials` arrives from a multi-dropdown; `None` and `[]` are
both falsy in `if compare_serials:`, so the empty list models both. -/
def update_plot (data : Option (List RRow)) (metric : String)
    (compareSerials : List String) (topN : ℚ) : PlotOut :=
  match data with
  | none => ⟨[], "", ""⟩
  | some df0 =>
    let df := keep_latest_run_only df0
    if compareSerials.isEmpty then
      ⟨buildFigure df (allSerialsOf df0) metric topN, "All serials (latest run)", ""⟩
    else
      let valid := validOf df0 compareSerials
      let missing := missingOf df0 compareSerials
      if valid.isEmpty then ⟨[], "No valid serials selected", warnOf missing⟩
      else
        ⟨buildFigure df valid metric topN,
          "Comparing " ++ toString valid.length ++ " serial(s)",
          if missing.isEmpty then "" else warnOf missing⟩

/-! ### `ensure_columns` and the `load_csv` callback -/

/-- The exceptions `ensure_columns` can raise: the explicit
`ValueError("Missing SerialNumber column")`, a pandas `KeyError` from
subscripting a missing column (`df["Channel"]`, `df["SampleCount"]`), and the
`TypeError: cannot safely cast non-equivalent float64 to int64` that
`.astype("Int64")` raises when a value is numeric but not integral. -/
inductive PipelineError where
  | missingSerialNumber : PipelineError
  | keyError : String → PipelineError
  | int64CastFailed : PipelineError
deriving DecidableEq, Repr

/-- One row of the uploaded CSV as `pd.read_csv` delivers it.  A numeric-ish
cell is represented by its `pd.to_numeric(..., errors="coerce")` value:
`none` when the raw text is unparseable (coerced to NaN) or empty, `some q`
when it parses to the number `q`.  The `Date`/`Time`/`FileMTime` columns feed
only the unused `Timestamp` and are omitted (their derivation cannot raise). -/
structure RawRow where
  serialNumber : String
  channelCell : Option ℚ
  sampleCountCell : Option ℚ
  hgoCell : Option ℚ := none
  lgoCell : Option ℚ := none
  ltcCell : Option ℚ := none
  rawCell : Option ℚ := none
  vmainCell : Option ℚ := none
deriving DecidableEq, Repr

/-- The uploaded CSV: which of the columns touched by `ensure_columns` are
present, plus the rows. -/
structure RawTable where
  hasSerialNumber : Bool
  hasChannel : Bool
  hasSampleCount : Bool
  rows : List RawRow
deriving DecidableEq, Repr

/-- Python `str.strip()` (pandas `.str.strip()`): drop leading and trailing
whitespace characters. -/
def pyStrip (s : String) : String :=
  ⟨((s.data.dropWhile Char.isWhitespace).reverse.dropWhile Char.isWhitespace).reverse⟩

/-- `pd.to_numeric(df["Channel"], errors="coerce").astype("Int64")`: the cast
to the nullable integer dtype is a *safe* cast — it raises a `TypeError` as
soon as any value is a non-integral number, and sends NaN to null. -/
def castChannel (cells : List (Option ℚ)) : Except PipelineError (List (Option Int)) :=
  if cells.all fun c =>
      match c with
      | none => true
      | some q => decide (q.den = 1) then
    Except.ok (cells.map fun c => c.bind fun q => if q.den = 1 then some q.num else none)
  else Except.error PipelineError.int64CastFailed

/-- `ensure_columns(df)` from `src/dashboard.py`, with the raises it actually
performs, in source order: the explicit SerialNumber check (line 37), the
`df["Channel"]` subscript and `Int64` cast (line 42), the `df["SampleCount"]`
subscript (line 43).  `df["SerialNumber"].astype(str).str.strip()` never
raises; `str.strip()` is `pyStrip`. -/
def ensure_columns (t : RawTable) : Except PipelineError (List Row) :=
  if t.hasSerialNumber = false then Except.error PipelineError.missingSerialNumber
  else if t.hasChannel = false then Except.error (PipelineError.keyError "Channel")
  else
    match castChannel (t.rows.map fun r => r.channelCell) with
    | Except.error e => Except.error e
    | Except.ok chans =>
      if t.hasSampleCount = false then Except.error (PipelineError.keyError "SampleCount")
      else
        Except.ok ((t.rows.zip chans).map fun pc =>
          { serial := pyStrip pc.1.serialNumber
            channel := pc.2
            x := pc.1.sampleCountCell
            hgo := pc.1.hgoCell
            lgo := pc.1.lgoCell
            ltc := pc.1.ltcCell
            raw := pc.1.rawCell
            vmain := pc.1.vmainCell })

/-- The state a `load_csv` invocation can change: the `data-store` contents,
the `compare-serials` dropdown options, and the `data.csv` flat file. -/
structure AppState where
  dataStore : Option (List RRow)
  serialOptions : List String
  dataFile : Option (List RRow)
deriving DecidableEq, Repr

/-- The `load_csv` upload callback.  A Python exception anywhere in the body
aborts the callback before `df.to_csv` runs and before any output is
delivered, so Dash leaves every output at its previous value; the pair's
second component records the escaped exception.  On success the normalized,
run-indexed dataframe is stored, written to `data.csv`, and the dropdown
options become the sorted distinct serials. -/
def load_csv (st : AppState) (t : RawTable) : AppState × Option PipelineError :=
  match ensure_columns t with
  | Except.error e => (st, some e)
  | Except.ok rows =>
    let dfi := add_run_index rows
    ({ dataStore := some dfi
       serialOptions := sortedSerials (dfi.map fun r => r.serial)
       dataFile := some dfi }, none)

/-! ### The summary table -/

/-- `sum(l)` as a rational. -/
def listSum (l : List ℚ) : ℚ := l.foldr (· + ·) 0

/-- Arithmetic mean of a list of observations. -/
def meanOf (l : List ℚ) : ℚ := listSum l / l.length

/-- Sample variance with the `N - 1` divisor (`ddof=1`); undefined (NaN) for
fewer than two observations.  The reported sample standard deviation is the
square root of this value; the square is carried so every field stays in `ℚ`. -/
def sampleVarN1 (l : List ℚ) : Option ℚ :=
  if l.length < 2 then none
  else some (listSum (l.map fun v => (v - meanOf l) ^ 2) / ((l.length : ℚ) - 1))

/-- One row of the `stats-table` (columns SerialNumber, Channel, Metric, Mean,
StdDev, N); `varN1` is the square of the StdDev cell. -/
structure SummaryRow where
  serial : String
  channel : Option Int
  metric : String
  mean : ℚ
  varN1 : Option ℚ
  n : Nat
deriving DecidableEq, Repr

/-- The non-null observations of one `(serial, channel, metric)` group. -/
def obsOf (df : List RRow) (s : String) (c : Option Int) (m : String) : List ℚ :=
  (df.filter fun r => decide (r.serial = s ∧ r.channel = c)).filterMap fun r =>
    Row.getMetric r.toRow m

/-- The distinct `(serial, channel, metric)` combinations having at least one
non-null observation, metric ranging over `METRICS`. -/
def combosOf (df : List RRow) : List (String × Option Int × String) :=
  ((METRICS.map fun m =>
    df.filterMap fun r =>
      if (Row.getMetric r.toRow m).isSome then some (r.serial, r.channel, m)
      else none).flatten).dedup

/-- Modelled from the spec: the summary-table builder is absent from
`src/dashboard.py` — the layout declares the `stats-table` `DataTable` with
columns SerialNumber/Channel/Metric/Mean/StdDev/N (lines 129–140) but no
callback ever computes its data.  Spec §4.5: group the latest-run-filtered
dataset by device, channel and metric; compute arithmetic mean, sample
standard deviation (`N−1` divisor) and count of non-null observations; one
row per combination present in the data, none for combinations with zero
observations. -/
def summaryTable (df : List RRow) : List SummaryRow :=
  (combosOf df).map fun k =>
    let vals := obsOf df k.1 k.2.1 k.2.2
    { serial := k.1
      channel := k.2.1
      metric := k.2.2
      mean := meanOf vals
      varN1 := sampleVarN1 vals
      n := vals.length }

/-! ## Theorems -/

lemma sortRows_sorted (l : List Row) : List.Sorted rowLe (sortRows l) :=
  List.sorted_insertionSort rowLe l

/-- Two consecutive rows of the same `(serial, channel)` group in sorted order
have non-decreasing `X`, so the boundary flag of the second one is `0`. -/
lemma bval_eq_zero_of_rowLe {p r : Row} (hs : p.serial = r.serial)
    (hc : p.channel = r.channel) (h : rowLe p r) : bval p.x r.x = 0 := by
  rcases hpx : p.x with _ | px
  · simp [bval]
  rcases hrx : r.x with _ | rx
  · simp [bval]
  unfold rowLe sortKey at h
  have h1 : toLex (owt p.channel, owt p.x) ≤ toLex (owt r.channel, owt r.x) := by
    rcases (Prod.Lex.le_iff _ _).mp h with h' | h'
    · rw [hs] at h'
      exact absurd h' (lt_irrefl _)
    · exact h'.2
  have h2 : owt p.x ≤ owt r.x := by
    rcases (Prod.Lex.le_iff _ _).mp h1 with h' | h'
    · rw [hc] at h'
      exact absurd h' (lt_irrefl _)
    · exact h'.2
  rw [hpx, hrx] at h2
  have hpr : px ≤ rx := by
    simpa [owt] using h2
  simp [bval, not_lt.mpr hpr]

/-- Along sorted input, the scan's counter can never leave `0`: the only
positive contribution would be a strict decrease of `X` inside a group, and
the sort forbids it. -/
lemma runScan_runIndex_zero :
    ∀ (l : List Row) (p : Option Row), List.Sorted rowLe l →
      (∀ p₀, p = some p₀ → ∀ b ∈ l, rowLe p₀ b) →
      ∀ r ∈ runScan p 0 l, r.runIndex = none ∨ r.runIndex = some 0 := by
  intro l
  induction l with
  | nil =>
    intro p _ _ r hr
    simp [runScan] at hr
  | cons a ls ih =>
    intro p hsort hp r hr
    rw [List.sorted_cons] at hsort
    rcases p with _ | p₀
    · simp only [runScan] at hr
      rcases List.mem_cons.mp hr with hhead | htl
      · subst hhead
        rcases hch : a.channel with _ | c
        · left; simp [hch]
        · right; simp [hch]
      · exact ih (some a) hsort.2
          (fun p₁ hp₁ b hb => by cases hp₁; exact hsort.1 b hb) r htl
    · have hb0 : (if p₀.serial = a.serial ∧ p₀.channel = a.channel
          then 0 + bval p₀.x a.x else 0) = 0 := by
        by_cases hk : p₀.serial = a.serial ∧ p₀.channel = a.channel
        · rw [if_pos hk, bval_eq_zero_of_rowLe hk.1 hk.2
            (hp p₀ rfl a (List.mem_cons_self a ls)), Nat.add_zero]
        · exact if_neg hk
      simp only [runScan] at hr
      rw [hb0] at hr
      rcases List.mem_cons.mp hr with hhead | htl
      · subst hhead
        rcases hch : a.channel with _ | c
        · left; simp [hch]
        · right; simp [hch]
      · exact ih (some a) hsort.2
          (fun p₁ hp₁ b hb => by cases hp₁; exact hsort.1 b hb) r htl

lemma add_run_index_runIndex_zero (df : List Row) :
    ∀ r ∈ add_run_index df, r.runIndex = none ∨ r.runIndex = some 0 :=
  runScan_runIndex_zero (sortRows df) none (sortRows_sorted df)
    (fun _ h => nomatch h)

/-- The spec's run-segmentation example: one device, one channel, sample
counts `[1, 2, 3, 1, 2]` in file order. -/
def c1Example : List Row :=
  [{ serial := "SN1", channel := some 0, x := some 1 },
   { serial := "SN1", channel := some 0, x := some 2 },
   { serial := "SN1", channel := some 0, x := some 3 },
   { serial := "SN1", channel := some 0, x := some 1 },
   { serial := "SN1", channel := some 0, x := some 2 }]

/-- C1: the code cannot segment runs at all.  `add_run_index` sorts by
`(SerialID, Channel, X)` — including `X` — before differencing, so within a
group the sorted `X` is non-decreasing and the boundary condition `diff < 0`
never fires: on the spec's example `[1,2,3,1,2]` every run index is `0`
(the claim requires `[0,0,0,1,1]`), and in general every row of
`add_run_index`'s output has run index `0` (or null for a null channel). -/
theorem add_run_index_never_segments :
    ((add_run_index c1Example).map (fun r => r.runIndex) =
      [some 0, some 0, some 0, some 0, some 0]) ∧
    (∀ df : List Row,
      ((add_run_index df).all fun r =>
        decide (r.runIndex = none ∨ r.runIndex = some 0)) = true) := by
  refine ⟨by decide, fun df => ?_⟩
  rw [List.all_eq_true]
  intro r hr
  exact decide_eq_true (add_run_index_runIndex_zero df r hr)

/-- C7: an upload whose decoded CSV lacks the `SerialNumber` column makes
`ensure_columns` raise the validation error before `df.to_csv` runs and
before any output is produced, so the stored dataset, the dropdown options
and the flat file all keep their previous values. -/
theorem load_csv_rejects_missing_serial (st : AppState) (t : RawTable)
    (h : t.hasSerialNumber = false) :
    load_csv st t = (st, some PipelineError.missingSerialNumber) := by
  simp [load_csv, ensure_columns, h]

theorem load_csv_rejects_missing_serial_witness :
    (RawTable.mk false true true
      [{ serialNumber := "A", channelCell := some 1, sampleCountCell := some 2 }]
      ).hasSerialNumber = false ∧
    load_csv ⟨some [], ["B"], some []⟩
        (RawTable.mk false true true
          [{ serialNumber := "A", channelCell := some 1, sampleCountCell := some 2 }]) =
      (⟨some [], ["B"], some []⟩, some PipelineError.missingSerialNumber) :=
  ⟨rfl, load_csv_rejects_missing_serial _ _ rfl⟩

lemma maxRun_eq_of_all_eq : ∀ (l : List Nat) (a : Nat), l ≠ [] →
    (∀ x ∈ l, x = a) → maxRun l = (a : WithBot Nat)
  | [], _, hne, _ => absurd rfl hne
  | [b], a, _, h => by
    have hb : b = a := h b (by simp)
    rw [maxRun, maxRun, hb, max_eq_left bot_le]
  | b :: c :: cs, a, _, h => by
    have hb : b = a := h b (by simp)
    have h2 : maxRun (c :: cs) = (a : WithBot Nat) :=
      maxRun_eq_of_all_eq (c :: cs) a (by simp)
        (fun x hx => h x (List.mem_cons_of_mem b hx))
    rw [maxRun, h2, hb, max_self]

lemma maxRun_exists_mem : ∀ l : List Nat, l ≠ [] →
    ∃ m : Nat, maxRun l = (m : WithBot Nat) ∧ m ∈ l
  | [], hne => absurd rfl hne
  | [b], _ => ⟨b, by rw [maxRun, maxRun, max_eq_left bot_le], by simp⟩
  | b :: c :: cs, _ => by
    obtain ⟨m, hm, hmem⟩ := maxRun_exists_mem (c :: cs) (by simp)
    rcases le_total b m with hbm | hmb
    · refine ⟨m, ?_, List.mem_cons_of_mem b hmem⟩
      rw [maxRun, hm]
      exact max_eq_right (WithBot.coe_le_coe.mpr hbm)
    · refine ⟨b, ?_, by simp⟩
      rw [maxRun, hm]
      exact max_eq_left (WithBot.coe_le_coe.mpr hmb)

lemma keepPred_eq_true {df : List RRow} {r : RRow} :
    keepPred df r = true ↔
      ∃ c ri, r.channel = some c ∧ r.runIndex = some ri ∧
        latestOf df r.serial r.channel = (ri : WithBot Nat) := by
  unfold keepPred
  rcases hc : r.channel with _ | c
  · simp [hc]
  rcases hri : r.runIndex with _ | ri
  · simp [hc, hri]
  · simp [hc, hri]

/-- C6: `keep_latest_run_only` is idempotent.  After one pass every surviving
row's run index equals its group's maximum; within the output each group
consists of rows all carrying that same value, so the second pass keeps
everything. -/
theorem keep_latest_run_only_idempotent (df : List RRow) :
    keep_latest_run_only (keep_latest_run_only df) = keep_latest_run_only df := by
  unfold keep_latest_run_only
  rw [List.filter_eq_self]
  intro r hr
  obtain ⟨hrdf, hpred⟩ := List.mem_filter.mp hr
  obtain ⟨c, ri, hc, hri, hlat⟩ := keepPred_eq_true.mp hpred
  rw [keepPred_eq_true]
  refine ⟨c, ri, hc, hri, ?_⟩
  unfold latestOf
  apply maxRun_eq_of_all_eq
  · apply List.ne_nil_of_mem (a := ri)
    exact List.mem_filterMap.mpr
      ⟨r, List.mem_filter.mpr ⟨hr, decide_eq_true ⟨rfl, rfl⟩⟩, hri⟩
  · intro x hx
    obtain ⟨r', hr', hx'⟩ := List.mem_filterMap.mp hx
    obtain ⟨hr'k, hkey⟩ := List.mem_filter.mp hr'
    obtain ⟨hs', hc'⟩ := of_decide_eq_true hkey
    obtain ⟨_, hpred'⟩ := List.mem_filter.mp hr'k
    obtain ⟨c', ri', _, hri', hlat'⟩ := keepPred_eq_true.mp hpred'
    rw [hs', hc'] at hlat'
    rw [hlat] at hlat'
    have hxri : x = ri' := by
      rw [hri'] at hx'
      exact (Option.some.injEq .. ▸ hx').symm
    rw [hxri]
    exact (WithBot.coe_inj.mp hlat').symm

/-- C2: on a dataset in which every row carries a channel and a run index
(as every grouped row does after `add_run_index`), `keep_latest_run_only`
keeps exactly the rows whose run index equals the maximum run index of their
`(serial, channel)` group, and every group present in the input keeps at
least one row (its maximum is attained by some member). -/
theorem keep_latest_run_only_spec (df : List RRow)
    (h : ∀ r ∈ df, r.channel.isSome = true ∧ r.runIndex.isSome = true) :
    (∀ r ∈ df, (r ∈ keep_latest_run_only df ↔
      latestOf df r.serial r.channel = ((r.runIndex.getD 0 : Nat) : WithBot Nat))) ∧
    (∀ r ∈ keep_latest_run_only df, r ∈ df) ∧
    (∀ (s : String) (c : Option Int), (∃ r ∈ df, r.serial = s ∧ r.channel = c) →
      ∃ r ∈ keep_latest_run_only df, r.serial = s ∧ r.channel = c) := by
  refine ⟨?_, ?_, ?_⟩
  · intro r hrdf
    obtain ⟨hcs, hris⟩ := h r hrdf
    obtain ⟨c, hc⟩ := Option.isSome_iff_exists.mp hcs
    obtain ⟨ri, hri⟩ := Option.isSome_iff_exists.mp hris
    unfold keep_latest_run_only
    rw [List.mem_filter, keepPred_eq_true]
    constructor
    · rintro ⟨_, c', ri', hc', hri', hlat⟩
      rw [hri] at hri'
      injection hri' with hh
      subst hh
      rw [hri, Option.getD_some]
      exact hlat
    · intro hlat
      exact ⟨hrdf, c, ri, hc, hri, by rw [hri, Option.getD_some] at hlat; exact hlat⟩
  · intro r hr
    unfold keep_latest_run_only at hr
    exact (List.mem_filter.mp hr).1
  · rintro s c ⟨r0, hr0, hs0, hc0⟩
    obtain ⟨hcs0, hris0⟩ := h r0 hr0
    obtain ⟨ri0, hri0⟩ := Option.isSome_iff_exists.mp hris0
    have hr0grp : r0 ∈ df.filter fun r' => decide (r'.serial = s ∧ r'.channel = c) :=
      List.mem_filter.mpr ⟨hr0, decide_eq_true ⟨hs0, hc0⟩⟩
    have hne : ((df.filter fun r' => decide (r'.serial = s ∧ r'.channel = c)).filterMap
        fun r' => r'.runIndex) ≠ [] :=
      List.ne_nil_of_mem (List.mem_filterMap.mpr ⟨r0, hr0grp, hri0⟩)
    obtain ⟨m, hm, hmmem⟩ := maxRun_exists_mem _ hne
    obtain ⟨r1, hr1grp, hri1⟩ := List.mem_filterMap.mp hmmem
    obtain ⟨hr1df, hkey1⟩ := List.mem_filter.mp hr1grp
    obtain ⟨hs1, hc1⟩ := of_decide_eq_true hkey1
    obtain ⟨hcs1, _⟩ := h r1 hr1df
    obtain ⟨c1, hcc1⟩ := Option.isSome_iff_exists.mp hcs1
    refine ⟨r1, ?_, hs1, hc1⟩
    unfold keep_latest_run_only
    rw [List.mem_filter, keepPred_eq_true]
    refine ⟨hr1df, c1, m, hcc1, hri1, ?_⟩
    rw [hs1, hc1]
    unfold latestOf
    rw [hm]

theorem keep_latest_run_only_spec_witness :
    (∀ r ∈ ([⟨⟨"A", some 1, some 1, none, none, none, none, none⟩, some 0⟩,
             ⟨⟨"A", some 1, some 2, none, none, none, none, none⟩, some 1⟩] : List RRow),
        r.channel.isSome = true ∧ r.runIndex.isSome = true) ∧
    ((∀ r ∈ ([⟨⟨"A", some 1, some 1, none, none, none, none, none⟩, some 0⟩,
              ⟨⟨"A", some 1, some 2, none, none, none, none, none⟩, some 1⟩] : List RRow),
        (r ∈ keep_latest_run_only
            [⟨⟨"A", some 1, some 1, none, none, none, none, none⟩, some 0⟩,
             ⟨⟨"A", some 1, some 2, none, none, none, none, none⟩, some 1⟩] ↔
          latestOf
            [⟨⟨"A", some 1, some 1, none, none, none, none, none⟩, some 0⟩,
             ⟨⟨"A", some 1, some 2, none, none, none, none, none⟩, some 1⟩]
            r.serial r.channel = ((r.runIndex.getD 0 : Nat) : WithBot Nat))) ∧
      (∀ r ∈ keep_latest_run_only
          [⟨⟨"A", some 1, some 1, none, none, none, none, none⟩, some 0⟩,
           ⟨⟨"A", some 1, some 2, none, none, none, none, none⟩, some 1⟩],
        r ∈ ([⟨⟨"A", some 1, some 1, none, none, none, none, none⟩, some 0⟩,
              ⟨⟨"A", some 1, some 2, none, none, none, none, none⟩, some 1⟩] : List RRow)) ∧
      (∀ (s : String) (c : Option Int),
        (∃ r ∈ ([⟨⟨"A", some 1, some 1, none, none, none, none, none⟩, some 0⟩,
                 ⟨⟨"A", some 1, some 2, none, none, none, none, none⟩, some 1⟩] : List RRow),
            r.serial = s ∧ r.channel = c) →
        ∃ r ∈ keep_latest_run_only
            [⟨⟨"A", some 1, some 1, none, none, none, none, none⟩, some 0⟩,
             ⟨⟨"A", some 1, some 2, none, none, none, none, none⟩, some 1⟩],
          r.serial = s ∧ r.channel = c)) :=
  ⟨by decide, keep_latest_run_only_spec _ (by decide)⟩

lemma runScan_null_channel :
    ∀ (l : List Row) (p : Option Row) (cnt : Nat), ∀ r ∈ runScan p cnt l,
      r.channel = none → r.runIndex = none := by
  intro l
  induction l with
  | nil =>
    intro p cnt r hr
    simp [runScan] at hr
  | cons a ls ih =>
    intro p cnt r hr hch
    simp only [runScan] at hr
    rcases List.mem_cons.mp hr with hhead | htl
    · subst hhead
      simp only at hch
      simp [hch]
    · exact ih _ _ r htl hch

/-- Membership in the distinct-combination list underlying the summary. -/
lemma mem_combosOf {df : List RRow} {k : String × Option Int × String} :
    k ∈ combosOf df ↔ k.2.2 ∈ METRICS ∧ ∃ r ∈ df,
      r.serial = k.1 ∧ r.channel = k.2.1 ∧
        (Row.getMetric r.toRow k.2.2).isSome = true := by
  rcases k with ⟨s, c, m⟩
  unfold combosOf
  rw [List.mem_dedup, List.mem_flatten]
  constructor
  · rintro ⟨L, hL, hk⟩
    rw [List.mem_map] at hL
    obtain ⟨m', hm', rfl⟩ := hL
    rw [List.mem_filterMap] at hk
    obtain ⟨r, hr, hrk⟩ := hk
    by_cases hms : (Row.getMetric r.toRow m').isSome
    · rw [if_pos hms, Option.some.injEq, Prod.mk.injEq, Prod.mk.injEq] at hrk
      obtain ⟨h1, h2, h3⟩ := hrk
      subst h3
      exact ⟨hm', r, hr, h1, h2, hms⟩
    · rw [if_neg hms] at hrk
      exact nomatch hrk
  · rintro ⟨hm, r, hr, h1, h2, h3⟩
    refine ⟨_, List.mem_map.mpr ⟨m, hm, rfl⟩, List.mem_filterMap.mpr ⟨r, hr, ?_⟩⟩
    rw [if_pos h3, h1, h2]

/-- C10: implicit null-channel behaviour.  A row whose channel is null gets a
null run index from `add_run_index` (the groupby excludes it), is then removed
by `keep_latest_run_only` (`NaN == NaN` is false), and consequently no
summary row carries a null channel; the plot builder consumes the same
latest-run-filtered rows. -/
theorem null_channel_rows_dropped :
    (∀ df : List Row, ∀ r ∈ add_run_index df, r.channel = none → r.runIndex = none) ∧
    (∀ df : List RRow, ∀ r ∈ keep_latest_run_only df,
      r.channel ≠ none ∧ r.runIndex ≠ none) ∧
    (∀ df : List RRow, ∀ w ∈ summaryTable (keep_latest_run_only df),
      w.channel ≠ none) := by
  have hkeep : ∀ df : List RRow, ∀ r ∈ keep_latest_run_only df,
      r.channel ≠ none ∧ r.runIndex ≠ none := by
    intro df r hr
    unfold keep_latest_run_only at hr
    obtain ⟨c, ri, hc, hri, _⟩ := keepPred_eq_true.mp (List.mem_filter.mp hr).2
    constructor
    · simp [hc]
    · simp [hri]
  refine ⟨?_, hkeep, ?_⟩
  · intro df r hr hch
    exact runScan_null_channel _ _ _ r hr hch
  · intro df w hw
    unfold summaryTable at hw
    rw [List.mem_map] at hw
    obtain ⟨k, hk, rfl⟩ := hw
    obtain ⟨_, r, hr, _, h2, _⟩ := mem_combosOf.mp hk
    have := (hkeep df r hr).1
    simp only
    rw [← h2]
    exact this

/-- A null-channel input row and its run-indexed image, for the C10 witness. -/
def nullChanRow : Row := ⟨"A", none, some 1, none, none, none, none, none⟩

def nullChanRRow : RRow := ⟨nullChanRow, none⟩

def keptRow : RRow := ⟨⟨"B", some 2, some 5, none, none, none, none, none⟩, some 3⟩

theorem null_channel_rows_dropped_witness :
    (nullChanRRow ∈ add_run_index [nullChanRow] ∧
      nullChanRRow.channel = none ∧ nullChanRRow.runIndex = none) ∧
    (keptRow ∈ keep_latest_run_only [keptRow] ∧ keptRow.channel ≠ none) :=
  ⟨⟨by decide, rfl,
      null_channel_rows_dropped.1 [nullChanRow] nullChanRRow (by decide) rfl⟩,
    by decide,
    (null_channel_rows_dropped.2.1 [keptRow] keptRow (by decide)).1⟩

/-- The `X`-null row used to refute the panel-partition claim: its channel and
run index are valid, so it survives `keep_latest_run_only`, yet `NaN <= 100`
and `NaN > 100` are both false. -/
def nanXRow : RRow := ⟨⟨"A", some 1, none, none, none, none, none, none⟩, some 0⟩

/-- C9 counterexample: a latest-run-filtered row with a null x-axis value
lands in neither panel, refuting "each row appears in exactly one of the two
panels". -/
theorem panel_partition_counterexample :
    nanXRow ∈ selFilter (keep_latest_run_only [nanXRow]) ["A"] ∧
    nanXRow ∉ topPanel (keep_latest_run_only [nanXRow]) ["A"] 100 ∧
    nanXRow ∉ botPanel (keep_latest_run_only [nanXRow]) ["A"] 100 := by
  decide

/-- C9 as amended: rows whose x-axis value is non-null are partitioned into
exactly one of the two panels — top iff `x ≤ threshold`, bottom iff
`x > threshold` — while a row with a null x-axis value appears in neither. -/
theorem panel_partition_amended (df : List RRow) (serials : List String)
    (topN : ℚ) (r : RRow) (hr : r ∈ selFilter df serials) :
    (∀ v : ℚ, r.x = some v →
      ((r ∈ topPanel df serials topN ↔ v ≤ topN) ∧
        (r ∈ botPanel df serials topN ↔ topN < v) ∧
        ¬(r ∈ topPanel df serials topN ∧ r ∈ botPanel df serials topN) ∧
        (r ∈ topPanel df serials topN ∨ r ∈ botPanel df serials topN))) ∧
    (r.x = none →
      r ∉ topPanel df serials topN ∧ r ∉ botPanel df serials topN) := by
  constructor
  · intro v hv
    have htop : r ∈ topPanel df serials topN ↔ v ≤ topN := by
      unfold topPanel
      rw [List.mem_filter]
      simp [hr, xLeB, hv]
    have hbot : r ∈ botPanel df serials topN ↔ topN < v := by
      unfold botPanel
      rw [List.mem_filter]
      simp [hr, xGtB, hv]
    refine ⟨htop, hbot, ?_, ?_⟩
    · rintro ⟨h1, h2⟩
      exact absurd (htop.mp h1) (not_le.mpr (hbot.mp h2))
    · rcases le_or_lt v topN with hle | hgt
      · exact Or.inl (htop.mpr hle)
      · exact Or.inr (hbot.mpr hgt)
  · intro hv
    constructor
    · intro hmem
      unfold topPanel at hmem
      have := (List.mem_filter.mp hmem).2
      rw [hv] at this
      exact nomatch this
    · intro hmem
      unfold botPanel at hmem
      have := (List.mem_filter.mp hmem).2
      rw [hv] at this
      exact nomatch this

theorem panel_partition_amended_witness :
    ((⟨⟨"A", some 1, some 7, none, none, none, none, none⟩, some 0⟩ : RRow) ∈
        selFilter [⟨⟨"A", some 1, some 7, none, none, none, none, none⟩, some 0⟩] ["A"] ∧
      (⟨⟨"A", some 1, some 7, none, none, none, none, none⟩, some 0⟩ : RRow).x = some 7) ∧
    ((⟨⟨"A", some 1, some 7, none, none, none, none, none⟩, some 0⟩ : RRow) ∈
        topPanel [⟨⟨"A", some 1, some 7, none, none, none, none, none⟩, some 0⟩] ["A"] 100 ↔
      (7 : ℚ) ≤ 100) :=
  ⟨⟨by decide, rfl⟩,
    ((panel_partition_amended _ ["A"] 100 _ (by decide)).1 7 rfl).1⟩

/-- Every trace emitted for serial `s` in panel `panel` carries those fields. -/
lemma tracesForSerial_fields {g : List RRow} {metric s : String} {panel : Nat} :
    ∀ t ∈ tracesForSerial g metric s panel, t.serial = s ∧ t.panel = panel := by
  intro t ht
  simp only [tracesForSerial] at ht
  split at ht
  · exact absurd ht (List.not_mem_nil t)
  · split at ht
    · simp at ht
      rcases ht with rfl | rfl | rfl | rfl <;> exact ⟨rfl, rfl⟩
    · simp at ht
      rcases ht with rfl | rfl <;> exact ⟨rfl, rfl⟩

lemma mem_panelTraces {rowDf : List RRow} {serials : List String} {metric : String}
    {panel : Nat} {t : Trace} :
    t ∈ panelTraces rowDf serials metric panel ↔
      ∃ s ∈ serials,
        t ∈ tracesForSerial (rowDf.filter fun r => decide (r.serial = s)) metric s panel := by
  unfold panelTraces
  rw [List.mem_flatten]
  constructor
  · rintro ⟨L, hL, ht⟩
    rw [List.mem_map] at hL
    obtain ⟨s, hs, rfl⟩ := hL
    exact ⟨s, hs, ht⟩
  · rintro ⟨s, hs, ht⟩
    exact ⟨_, List.mem_map.mpr ⟨s, hs, rfl⟩, ht⟩

lemma panelTraces_serial {rowDf : List RRow} {serials : List String}
    {metric : String} {panel : Nat} :
    ∀ t ∈ panelTraces rowDf serials metric panel,
      t.serial ∈ serials ∧ t.panel = panel := by
  intro t ht
  obtain ⟨s, hs, ht'⟩ := mem_panelTraces.mp ht
  obtain ⟨h1, h2⟩ := tracesForSerial_fields t ht'
  rw [h1]
  exact ⟨hs, h2⟩

lemma buildFigure_serial {df : List RRow} {serials : List String}
    {metric : String} {topN : ℚ} :
    ∀ t ∈ buildFigure df serials metric topN, t.serial ∈ serials := by
  intro t ht
  unfold buildFigure at ht
  rcases List.mem_append.mp ht with h | h
  · exact (panelTraces_serial t h).1
  · exact (panelTraces_serial t h).1

lemma sortedSerials_sorted (l : List String) : List.Sorted strLe (sortedSerials l) :=
  List.sorted_insertionSort strLe l.dedup

lemma mem_sortedSerials {l : List String} {s : String} :
    s ∈ sortedSerials l ↔ s ∈ l := by
  unfold sortedSerials
  rw [(List.perm_insertionSort strLe l.dedup).mem_iff, List.mem_dedup]

lemma mem_allSerialsOf {df0 : List RRow} {s : String} :
    s ∈ allSerialsOf df0 ↔ ∃ r ∈ keep_latest_run_only df0, r.serial = s := by
  unfold allSerialsOf
  rw [mem_sortedSerials]
  exact List.mem_map

lemma mem_validOf {df0 : List RRow} {compare : List String} {s : String} :
    s ∈ validOf df0 compare ↔ s ∈ compare ∧ s ∈ allSerialsOf df0 := by
  unfold validOf
  rw [List.mem_filter]
  simp

lemma mem_missingOf {df0 : List RRow} {compare : List String} {s : String} :
    s ∈ missingOf df0 compare ↔ s ∈ compare ∧ s ∉ allSerialsOf df0 := by
  unfold missingOf
  rw [List.mem_filter]
  simp

lemma update_plot_no_valid (df0 : List RRow) (metric : String)
    (compare : List String) (topN : ℚ) (hne : compare ≠ [])
    (hval : validOf df0 compare = []) :
    update_plot (some df0) metric compare topN =
      ⟨[], "No valid serials selected", warnOf (missingOf df0 compare)⟩ := by
  have h1 : compare.isEmpty = false := by
    cases compare
    · exact absurd rfl hne
    · rfl
  simp [update_plot, h1, hval]

lemma update_plot_with_valid (df0 : List RRow) (metric : String)
    (compare : List String) (topN : ℚ) (hne : compare ≠ [])
    (hval : validOf df0 compare ≠ []) :
    update_plot (some df0) metric compare topN =
      ⟨buildFigure (keep_latest_run_only df0) (validOf df0 compare) metric topN,
        "Comparing " ++ toString (validOf df0 compare).length ++ " serial(s)",
        if (missingOf df0 compare).isEmpty then "" else warnOf (missingOf df0 compare)⟩ := by
  have h1 : compare.isEmpty = false := by
    cases compare
    · exact absurd rfl hne
    · rfl
  have h2 : (validOf df0 compare).isEmpty = false := by
    cases hv : validOf df0 compare
    · exact absurd hv hval
    · rfl
  simp [update_plot, h1, h2]

lemma update_plot_all_serials (df0 : List RRow) (metric : String) (topN : ℚ) :
    update_plot (some df0) metric [] topN =
      ⟨buildFigure (keep_latest_run_only df0) (allSerialsOf df0) metric topN,
        "All serials (latest run)", ""⟩ := rfl

/-- C4: the device-selection policy of `update_plot`.  A requested subset is
split into `valid` (present among the latest-run serials) and `missing`; an
all-missing selection yields the empty figure, the "No valid serials
selected" label and the warning listing the missing serials; a partially
valid selection plots only valid serials and warns exactly when some are
missing; no selection plots all serials, which are the distinct serials of
the latest-run data in ascending order. -/
theorem update_plot_device_selection (df0 : List RRow) (metric : String)
    (compare : List String) (topN : ℚ) :
    (compare ≠ [] → validOf df0 compare = [] →
      update_plot (some df0) metric compare topN =
        ⟨[], "No valid serials selected", warnOf (missingOf df0 compare)⟩) ∧
    (compare ≠ [] → validOf df0 compare ≠ [] →
      (∀ t ∈ (update_plot (some df0) metric compare topN).traces,
        t.serial ∈ validOf df0 compare) ∧
      (update_plot (some df0) metric compare topN).label =
        "Comparing " ++ toString (validOf df0 compare).length ++ " serial(s)" ∧
      (update_plot (some df0) metric compare topN).warning =
        (if missingOf df0 compare = [] then "" else warnOf (missingOf df0 compare))) ∧
    (compare = [] →
      (∀ t ∈ (update_plot (some df0) metric compare topN).traces,
        t.serial ∈ allSerialsOf df0) ∧
      (update_plot (some df0) metric compare topN).label = "All serials (latest run)" ∧
      (update_plot (some df0) metric compare topN).warning = "") ∧
    List.Sorted strLe (allSerialsOf df0) ∧
    (∀ s : String, s ∈ allSerialsOf df0 ↔ ∃ r ∈ keep_latest_run_only df0, r.serial = s) ∧
    (∀ s : String, s ∈ validOf df0 compare ↔ s ∈ compare ∧ s ∈ allSerialsOf df0) ∧
    (∀ s : String, s ∈ missingOf df0 compare ↔ s ∈ compare ∧ s ∉ allSerialsOf df0) := by
  refine ⟨?_, ?_, ?_, ?_, ?_, ?_, ?_⟩
  · intro hne hval
    exact update_plot_no_valid df0 metric compare topN hne hval
  · intro hne hval
    rw [update_plot_with_valid df0 metric compare topN hne hval]
    refine ⟨buildFigure_serial, rfl, ?_⟩
    cases missingOf df0 compare <;> simp
  · rintro rfl
    rw [update_plot_all_serials df0 metric topN]
    exact ⟨buildFigure_serial, rfl, rfl⟩
  · exact sortedSerials_sorted _
  · intro s
    exact mem_allSerialsOf
  · intro s
    exact mem_validOf
  · intro s
    exact mem_missingOf

/-- The single-serial dataset used by the C4 witness. -/
def c4Df : List RRow := [⟨⟨"A", some 1, some 1, none, none, none, none, none⟩, some 0⟩]

theorem update_plot_device_selection_witness :
    ((["B"] : List String) ≠ [] ∧ validOf c4Df ["B"] = [] ∧
      update_plot (some c4Df) "RAW" ["B"] 100 =
        ⟨[], "No valid serials selected", warnOf (missingOf c4Df ["B"])⟩) ∧
    ((["A", "B"] : List String) ≠ [] ∧ validOf c4Df ["A", "B"] ≠ [] ∧
      ∀ t ∈ (update_plot (some c4Df) "RAW" ["A", "B"] 100).traces,
        t.serial ∈ validOf c4Df ["A", "B"]) :=
  ⟨⟨by decide, by decide,
      (update_plot_device_selection c4Df "RAW" ["B"] 100).1 (by decide) (by decide)⟩,
    by decide, by decide,
    ((update_plot_device_selection c4Df "RAW" ["A", "B"] 100).2.1
      (by decide) (by decide)).1⟩

/-- Closed form of `tracesForSerial` as a two-way case split. -/
lemma tracesForSerial_eq (g : List RRow) (metric s : String) (panel : Nat) :
    tracesForSerial g metric s panel =
      if g = [] then []
      else if 2 ≤ (g.filterMap fun r => Row.getMetric r.toRow metric).length then
        [⟨s, panel, TraceKind.rawSeries, decide (panel = 1)⟩,
          ⟨s, panel, TraceKind.meanLine, decide (panel = 1)⟩,
          ⟨s, panel, TraceKind.sigmaPlus, false⟩,
          ⟨s, panel, TraceKind.sigmaMinus, false⟩]
      else
        [⟨s, panel, TraceKind.rawSeries, decide (panel = 1)⟩,
          ⟨s, panel, TraceKind.meanLine, decide (panel = 1)⟩] := by
  rcases g with _ | ⟨a, g'⟩
  · simp [tracesForSerial]
  · simp only [tracesForSerial, List.isEmpty_cons, Bool.false_eq_true, if_false,
      reduceCtorEq]
    rfl

/-- Membership of each of the four trace shapes in one panel's traces. -/
lemma panel_mem_char (rowDf : List RRow) (serials : List String) (metric : String)
    (panel : Nat) (s : String) (hs : s ∈ serials) :
    ((⟨s, panel, TraceKind.rawSeries, decide (panel = 1)⟩ : Trace) ∈
        panelTraces rowDf serials metric panel ↔
      (rowDf.filter fun r => decide (r.serial = s)) ≠ []) ∧
    ((⟨s, panel, TraceKind.meanLine, decide (panel = 1)⟩ : Trace) ∈
        panelTraces rowDf serials metric panel ↔
      (rowDf.filter fun r => decide (r.serial = s)) ≠ []) ∧
    ((⟨s, panel, TraceKind.sigmaPlus, false⟩ : Trace) ∈
        panelTraces rowDf serials metric panel ↔
      ((rowDf.filter fun r => decide (r.serial = s)) ≠ [] ∧
        2 ≤ (((rowDf.filter fun r => decide (r.serial = s)).filterMap
          fun r => Row.getMetric r.toRow metric)).length)) ∧
    ((⟨s, panel, TraceKind.sigmaMinus, false⟩ : Trace) ∈
        panelTraces rowDf serials metric panel ↔
      ((rowDf.filter fun r => decide (r.serial = s)) ≠ [] ∧
        2 ≤ (((rowDf.filter fun r => decide (r.serial = s)).filterMap
          fun r => Row.getMetric r.toRow metric)).length)) := by
  have hgen : ∀ t : Trace, t.serial = s →
      (t ∈ panelTraces rowDf serials metric panel ↔
        t ∈ tracesForSerial (rowDf.filter fun r => decide (r.serial = s))
          metric s panel) := by
    intro t hts
    rw [mem_panelTraces]
    constructor
    · rintro ⟨s', hs', ht⟩
      have := (tracesForSerial_fields t ht).1
      rw [hts] at this
      subst this
      exact ht
    · intro ht
      exact ⟨s, hs, ht⟩
  refine ⟨?_, ?_, ?_, ?_⟩ <;>
    rw [hgen _ rfl, tracesForSerial_eq] <;>
    by_cases hg : (rowDf.filter fun r => decide (r.serial = s)) = [] <;>
    simp only [hg, if_true, if_false, List.not_mem_nil, ne_eq, not_true_eq_false,
      not_false_eq_true, iff_false, false_and, iff_true, true_and] <;>
    try simp
  all_goals
    by_cases hobs : 2 ≤ (((rowDf.filter fun r => decide (r.serial = s)).filterMap
        fun r => Row.getMetric r.toRow metric)).length <;>
      simp [hobs]

/-- Traces of the top panel are the panel-1 members of the figure. -/
lemma mem_buildFigure_top {df : List RRow} {serials : List String}
    {metric : String} {topN : ℚ} {t : Trace} (ht : t.panel = 1) :
    t ∈ buildFigure df serials metric topN ↔
      t ∈ panelTraces (topPanel df serials topN) serials metric 1 := by
  unfold buildFigure
  rw [List.mem_append]
  constructor
  · rintro (h | h)
    · exact h
    · have h2 := (panelTraces_serial t h).2
      rw [ht] at h2
      exact absurd h2 (by decide)
  · exact Or.inl

/-- Traces of the bottom panel are the panel-2 members of the figure. -/
lemma mem_buildFigure_bot {df : List RRow} {serials : List String}
    {metric : String} {topN : ℚ} {t : Trace} (ht : t.panel = 2) :
    t ∈ buildFigure df serials metric topN ↔
      t ∈ panelTraces (botPanel df serials topN) serials metric 2 := by
  unfold buildFigure
  rw [List.mem_append]
  constructor
  · rintro (h | h)
    · have h2 := (panelTraces_serial t h).2
      rw [ht] at h2
      exact absurd h2 (by decide)
    · exact h
  · exact Or.inr

/-- C8: for a device with at least one row in a panel, the raw series and the
dashed mean line are always drawn there; the `mean ± σ` lines are drawn in
that panel if and only if the device has at least two observed (non-null)
metric points in it — with exactly one observed point both `±σ` lines are
absent while the raw series and the mean line are still present. -/
theorem sigma_overlay_spec (df : List RRow) (serials : List String)
    (metric : String) (topN : ℚ) (s : String) (hs : s ∈ serials) :
    (((topPanel df serials topN).filter fun r => decide (r.serial = s)) ≠ [] →
      ((⟨s, 1, TraceKind.rawSeries, true⟩ : Trace) ∈
          buildFigure df serials metric topN ∧
        (⟨s, 1, TraceKind.meanLine, true⟩ : Trace) ∈
          buildFigure df serials metric topN ∧
        ((⟨s, 1, TraceKind.sigmaPlus, false⟩ : Trace) ∈
            buildFigure df serials metric topN ↔
          2 ≤ (((topPanel df serials topN).filter fun r => decide (r.serial = s)).filterMap
            fun r => Row.getMetric r.toRow metric).length) ∧
        ((⟨s, 1, TraceKind.sigmaMinus, false⟩ : Trace) ∈
            buildFigure df serials metric topN ↔
          2 ≤ (((topPanel df serials topN).filter fun r => decide (r.serial = s)).filterMap
            fun r => Row.getMetric r.toRow metric).length))) ∧
    (((botPanel df serials topN).filter fun r => decide (r.serial = s)) ≠ [] →
      ((⟨s, 2, TraceKind.rawSeries, false⟩ : Trace) ∈
          buildFigure df serials metric topN ∧
        (⟨s, 2, TraceKind.meanLine, false⟩ : Trace) ∈
          buildFigure df serials metric topN ∧
        ((⟨s, 2, TraceKind.sigmaPlus, false⟩ : Trace) ∈
            buildFigure df serials metric topN ↔
          2 ≤ (((botPanel df serials topN).filter fun r => decide (r.serial = s)).filterMap
            fun r => Row.getMetric r.toRow metric).length) ∧
        ((⟨s, 2, TraceKind.sigmaMinus, false⟩ : Trace) ∈
            buildFigure df serials metric topN ↔
          2 ≤ (((botPanel df serials topN).filter fun r => decide (r.serial = s)).filterMap
            fun r => Row.getMetric r.toRow metric).length))) := by
  obtain ⟨hraw1, hmean1, hsp1, hsm1⟩ :=
    panel_mem_char (topPanel df serials topN) serials metric 1 s hs
  obtain ⟨hraw2, hmean2, hsp2, hsm2⟩ :=
    panel_mem_char (botPanel df serials topN) serials metric 2 s hs
  constructor
  · intro hg
    refine ⟨?_, ?_, ?_, ?_⟩
    · rw [mem_buildFigure_top rfl]
      exact hraw1.mpr hg
    · rw [mem_buildFigure_top rfl]
      exact hmean1.mpr hg
    · rw [mem_buildFigure_top rfl, hsp1]
      exact ⟨fun h => h.2, fun h => ⟨hg, h⟩⟩
    · rw [mem_buildFigure_top rfl, hsm1]
      exact ⟨fun h => h.2, fun h => ⟨hg, h⟩⟩
  · intro hg
    refine ⟨?_, ?_, ?_, ?_⟩
    · rw [mem_buildFigure_bot rfl]
      exact hraw2.mpr hg
    · rw [mem_buildFigure_bot rfl]
      exact hmean2.mpr hg
    · rw [mem_buildFigure_bot rfl, hsp2]
      exact ⟨fun h => h.2, fun h => ⟨hg, h⟩⟩
    · rw [mem_buildFigure_bot rfl, hsm2]
      exact ⟨fun h => h.2, fun h => ⟨hg, h⟩⟩

/-- A one-observed-point dataset for the C8 witness: serial `A` has exactly
one row in the top panel, with a non-null `RAW` value. -/
def c8Df : List RRow := [⟨⟨"A", some 1, some 1, none, none, none, some 5, none⟩, some 0⟩]

theorem sigma_overlay_spec_witness :
    ("A" ∈ (["A"] : List String)) ∧
    (((topPanel c8Df ["A"] 100).filter fun r => decide (r.serial = "A")) ≠ []) ∧
    ((⟨"A", 1, TraceKind.rawSeries, true⟩ : Trace) ∈ buildFigure c8Df ["A"] "RAW" 100) ∧
    ((⟨"A", 1, TraceKind.meanLine, true⟩ : Trace) ∈ buildFigure c8Df ["A"] "RAW" 100) ∧
    ((⟨"A", 1, TraceKind.sigmaPlus, false⟩ : Trace) ∉ buildFigure c8Df ["A"] "RAW" 100) ∧
    ((⟨"A", 1, TraceKind.sigmaMinus, false⟩ : Trace) ∉ buildFigure c8Df ["A"] "RAW" 100) := by
  have h := (sigma_overlay_spec c8Df ["A"] "RAW" 100 "A" (by decide)).1 (by decide)
  refine ⟨by decide, by decide, h.1, h.2.1, ?_, ?_⟩
  · intro hmem
    exact absurd (h.2.2.1.mp hmem) (by decide)
  · intro hmem
    exact absurd (h.2.2.2.mp hmem) (by decide)

lemma castChannel_ok_iff (cells : List (Option ℚ)) :
    (∃ chans, castChannel cells = Except.ok chans) ↔
      ∀ c ∈ cells, ∀ q : ℚ, c = some q → q.den = 1 := by
  unfold castChannel
  by_cases hall : (cells.all fun c =>
      match c with
      | none => true
      | some q => decide (q.den = 1)) = true
  · rw [if_pos hall]
    constructor
    · intro _ c hc q hq
      have h' := List.all_eq_true.mp hall c hc
      rw [hq] at h'
      exact of_decide_eq_true h'
    · intro _
      exact ⟨_, rfl⟩
  · rw [if_neg hall]
    constructor
    · rintro ⟨chans, hch⟩
      exact nomatch hch
    · intro hint
      exfalso
      apply hall
      rw [List.all_eq_true]
      intro c hc
      rcases c with _ | q
      · rfl
      · exact decide_eq_true (hint (some q) hc q rfl)

lemma castChannel_error_eq {cells : List (Option ℚ)} {e : PipelineError}
    (h : castChannel cells = Except.error e) :
    e = PipelineError.int64CastFailed := by
  unfold castChannel at h
  split at h
  · exact nomatch h
  · injection h with h'
    exact h'.symm

lemma castChannel_ok_eq {cells : List (Option ℚ)} {chans : List (Option Int)}
    (h : castChannel cells = Except.ok chans) :
    chans = cells.map fun c => c.bind fun q => if q.den = 1 then some q.num else none := by
  unfold castChannel at h
  split at h
  · injection h with h'
    exact h'.symm
  · exact nomatch h

lemma forall₂_zip_map {α β γ : Type} {R : α → γ → Prop} (gg : α → β) (bb : α × β → γ) :
    ∀ l : List α, (∀ a ∈ l, R a (bb (a, gg a))) →
      List.Forall₂ R l ((l.zip (l.map gg)).map bb)
  | [], _ => List.Forall₂.nil
  | a :: as, hp =>
    List.Forall₂.cons (hp a (by simp))
      (forall₂_zip_map gg bb as fun a' h => hp a' (List.mem_cons_of_mem a h))

/-- A table that has the `SerialNumber` column (and the others) but holds the
numeric, non-integral channel value `3/2`. -/
def badChannelTable : RawTable :=
  { hasSerialNumber := true
    hasChannel := true
    hasSampleCount := true
    rows := [{ serialNumber := "A", channelCell := some (mkRat 3 2),
               sampleCountCell := some 1 }] }

/-- C5 counterexample: normalization fails on a dataset that does have the
device-identifier column — the parseable but non-integral channel value `3/2`
makes `.astype("Int64")` raise instead of becoming null, refuting both the
"raises iff the device column is absent" direction and "non-integer values
become null rather than causing an error". -/
theorem ensure_columns_counterexample :
    badChannelTable.hasSerialNumber = true ∧
    ensure_columns badChannelTable = Except.error PipelineError.int64CastFailed := by
  refine ⟨rfl, ?_⟩
  have hbad : ¬(mkRat 3 2).den = 1 := by decide
  simp [ensure_columns, badChannelTable, castChannel, hbad]

/-- C5 as amended: `ensure_columns` succeeds iff the `SerialNumber`,
`Channel` and `SampleCount` columns are all present and every channel cell is
null, unparseable (null after coercion) or an integral number; it fails with
the dedicated validation error exactly when `SerialNumber` is absent; and on
success each output row carries the stripped serial, the (possibly null)
sample count as `X`, a null channel for an unparseable cell, and the integer
value for an integral cell — a parseable non-integral channel value raises
the `Int64` cast error instead of becoming null. -/
theorem ensure_columns_amended (t : RawTable) :
    ((∃ out, ensure_columns t = Except.ok out) ↔
      (t.hasSerialNumber = true ∧ t.hasChannel = true ∧ t.hasSampleCount = true ∧
        ∀ r ∈ t.rows, ∀ q : ℚ, r.channelCell = some q → q.den = 1)) ∧
    (ensure_columns t = Except.error PipelineError.missingSerialNumber ↔
      t.hasSerialNumber = false) ∧
    (∀ out, ensure_columns t = Except.ok out →
      List.Forall₂ (fun (a : RawRow) (b : Row) =>
        b.serial = pyStrip a.serialNumber ∧
        b.x = a.sampleCountCell ∧
        (a.channelCell = none → b.channel = none) ∧
        (∀ q : ℚ, a.channelCell = some q → b.channel = some q.num)) t.rows out) := by
  rcases hsn : t.hasSerialNumber with _ | _
  · refine ⟨?_, ?_, ?_⟩
    · simp [ensure_columns, hsn]
    · simp [ensure_columns, hsn]
    · intro out hout
      simp [ensure_columns, hsn] at hout
  · rcases hch : t.hasChannel with _ | _
    · refine ⟨?_, ?_, ?_⟩
      · simp [ensure_columns, hsn, hch]
      · simp [ensure_columns, hsn, hch]
      · intro out hout
        simp [ensure_columns, hsn, hch] at hout
    · cases hcast : castChannel (t.rows.map fun r => r.channelCell) with
      | error e =>
        have hnotok : ¬∀ r ∈ t.rows, ∀ q : ℚ, r.channelCell = some q → q.den = 1 := by
          intro hint
          have hok : ∀ c ∈ t.rows.map fun r => r.channelCell, ∀ q : ℚ,
              c = some q → q.den = 1 := by
            intro c hc q hq
            obtain ⟨r, hr, rfl⟩ := List.mem_map.mp hc
            exact hint r hr q hq
          obtain ⟨chans, hchans⟩ := (castChannel_ok_iff _).mpr hok
          rw [hchans] at hcast
          exact nomatch hcast
        refine ⟨?_, ?_, ?_⟩
        · constructor
          · rintro ⟨out, hout⟩
            simp [ensure_columns, hsn, hch, hcast] at hout
          · rintro ⟨_, _, _, hint⟩
            exact (hnotok hint).elim
        · rw [castChannel_error_eq hcast] at hcast
          simp [ensure_columns, hsn, hch, hcast]
        · intro out hout
          simp [ensure_columns, hsn, hch, hcast] at hout
      | ok chans =>
        have hintegral : ∀ r ∈ t.rows, ∀ q : ℚ, r.channelCell = some q → q.den = 1 := by
          have := (castChannel_ok_iff (t.rows.map fun r => r.channelCell)).mp ⟨chans, hcast⟩
          intro r hr q hq
          exact this (r.channelCell) (List.mem_map.mpr ⟨r, hr, rfl⟩) q hq
        rcases hsc : t.hasSampleCount with _ | _
        · refine ⟨?_, ?_, ?_⟩
          · constructor
            · rintro ⟨out, hout⟩
              simp [ensure_columns, hsn, hch, hcast, hsc] at hout
            · rintro ⟨_, _, hcon, _⟩
              exact nomatch hcon
          · simp [ensure_columns, hsn, hch, hcast, hsc]
          · intro out hout
            simp [ensure_columns, hsn, hch, hcast, hsc] at hout
        · have hout_eq : ensure_columns t =
              Except.ok ((t.rows.zip chans).map fun pc =>
                { serial := pyStrip pc.1.serialNumber
                  channel := pc.2
                  x := pc.1.sampleCountCell
                  hgo := pc.1.hgoCell
                  lgo := pc.1.lgoCell
                  ltc := pc.1.ltcCell
                  raw := pc.1.rawCell
                  vmain := pc.1.vmainCell }) := by
            simp [ensure_columns, hsn, hch, hcast, hsc]
          refine ⟨?_, ?_, ?_⟩
          · constructor
            · intro _
              exact ⟨rfl, rfl, rfl, hintegral⟩
            · intro _
              exact ⟨_, hout_eq⟩
          · rw [hout_eq]
            simp
          · intro out hout
            rw [hout_eq] at hout
            injection hout with hout'
            subst hout'
            rw [castChannel_ok_eq hcast, List.map_map]
            apply forall₂_zip_map
            intro a ha
            refine ⟨rfl, rfl, ?_, ?_⟩
            · intro hcell
              show (a.channelCell.bind fun q =>
                if q.den = 1 then some q.num else none) = none
              rw [hcell]
              rfl
            · intro q hq
              show (a.channelCell.bind fun q =>
                if q.den = 1 then some q.num else none) = some q.num
              rw [hq]
              simp [hintegral a ha q hq]

/-- A table exercising the amended C5: one row with whitespace around the
serial and an integral channel, one row with an unparseable channel. -/
def goodTable : RawTable :=
  { hasSerialNumber := true
    hasChannel := true
    hasSampleCount := true
    rows := [{ serialNumber := " A ", channelCell := some 3, sampleCountCell := some 1 },
             { serialNumber := "B", channelCell := none, sampleCountCell := none }] }

theorem ensure_columns_amended_witness :
    (ensure_columns goodTable =
      Except.ok [⟨"A", some 3, some 1, none, none, none, none, none⟩,
                 ⟨"B", none, none, none, none, none, none, none⟩]) ∧
    List.Forall₂ (fun (a : RawRow) (b : Row) =>
      b.serial = pyStrip a.serialNumber ∧
      b.x = a.sampleCountCell ∧
      (a.channelCell = none → b.channel = none) ∧
      (∀ q : ℚ, a.channelCell = some q → b.channel = some q.num)) goodTable.rows
      [⟨"A", some 3, some 1, none, none, none, none, none⟩,
       ⟨"B", none, none, none, none, none, none, none⟩] :=
  ⟨rfl, (ensure_columns_amended goodTable).2.2 _ rfl⟩

lemma map_map_id {α β : Type} (f : α → β) (g : β → α) (h : ∀ a, g (f a) = a) :
    ∀ l : List α, (l.map f).map g = l
  | [] => rfl
  | a :: as => by rw [List.map_cons, List.map_cons, h, map_map_id f g h as]

/-- The key triples of the summary are exactly the distinct combinations. -/
lemma summaryTable_keys (df : List RRow) :
    (summaryTable df).map (fun w => (w.serial, w.channel, w.metric)) = combosOf df := by
  unfold summaryTable
  exact map_map_id _ _ (fun k => by rcases k with ⟨s, c, m⟩; rfl) (combosOf df)

/-- C3 (spec-modelled): the summary table over the latest-run-filtered data
has exactly one row per distinct `(serial, channel, metric)` combination with
at least one non-null observation — no row for empty combinations — and each
row reports the observation count, the arithmetic mean `sum/n`, and the
sample variance with the `N−1` divisor (the square of the reported standard
deviation), which is undefined below two observations. -/
theorem summary_table_spec (df : List RRow) :
    ((summaryTable (keep_latest_run_only df)).map
      (fun w => (w.serial, w.channel, w.metric))).Nodup ∧
    (∀ (s : String) (c : Option Int) (m : String),
      ((s, c, m) ∈ (summaryTable (keep_latest_run_only df)).map
          (fun w => (w.serial, w.channel, w.metric))) ↔
        (m ∈ METRICS ∧ ∃ r ∈ keep_latest_run_only df,
          r.serial = s ∧ r.channel = c ∧ (Row.getMetric r.toRow m).isSome = true)) ∧
    (∀ w ∈ summaryTable (keep_latest_run_only df),
      0 < (obsOf (keep_latest_run_only df) w.serial w.channel w.metric).length ∧
      w.n = (obsOf (keep_latest_run_only df) w.serial w.channel w.metric).length ∧
      w.mean = listSum (obsOf (keep_latest_run_only df) w.serial w.channel w.metric) /
        ((obsOf (keep_latest_run_only df) w.serial w.channel w.metric).length : ℚ) ∧
      ((obsOf (keep_latest_run_only df) w.serial w.channel w.metric).length < 2 →
        w.varN1 = none) ∧
      (2 ≤ (obsOf (keep_latest_run_only df) w.serial w.channel w.metric).length →
        w.varN1 = some (listSum
          ((obsOf (keep_latest_run_only df) w.serial w.channel w.metric).map fun v =>
            (v - meanOf (obsOf (keep_latest_run_only df) w.serial w.channel w.metric)) ^ 2) /
          (((obsOf (keep_latest_run_only df) w.serial w.channel w.metric).length : ℚ) - 1)))) := by
  refine ⟨?_, ?_, ?_⟩
  · rw [summaryTable_keys]
    unfold combosOf
    exact List.nodup_dedup _
  · intro s c m
    rw [summaryTable_keys]
    exact mem_combosOf
  · intro w hw
    unfold summaryTable at hw
    rw [List.mem_map] at hw
    obtain ⟨k, hk, rfl⟩ := hw
    rcases k with ⟨s, c, m⟩
    obtain ⟨hm, r, hr, h1, h2, h3⟩ := mem_combosOf.mp hk
    obtain ⟨v, hv⟩ := Option.isSome_iff_exists.mp h3
    refine ⟨?_, rfl, rfl, ?_, ?_⟩
    · apply List.length_pos.mpr
      apply List.ne_nil_of_mem (a := v)
      exact List.mem_filterMap.mpr
        ⟨r, List.mem_filter.mpr ⟨hr, decide_eq_true ⟨h1, h2⟩⟩, hv⟩
    · intro hlt
      show sampleVarN1 _ = none
      unfold sampleVarN1
      rw [if_pos hlt]
    · intro hge
      show sampleVarN1 _ = some _
      unfold sampleVarN1
      rw [if_neg (not_lt.mpr hge)]

/-- The two-observation dataset for the C3 witness: serial `A`, channel `1`,
`RAW` values `2` and `4` in a single run. -/
def c3Df : List RRow :=
  [⟨⟨"A", some 1, some 1, none, none, none, some 2, none⟩, some 0⟩,
   ⟨⟨"A", some 1, some 2, none, none, none, some 4, none⟩, some 0⟩]

/-- The summary row the model produces for `c3Df`: mean `3`, sample variance
`2` (standard deviation `√2`), count `2`. -/
def c3Row : SummaryRow := ⟨"A", some 1, "RAW", 3, some 2, 2⟩

theorem summary_table_spec_witness :
    (c3Row ∈ summaryTable (keep_latest_run_only c3Df)) ∧
    (0 < (obsOf (keep_latest_run_only c3Df) c3Row.serial c3Row.channel c3Row.metric).length ∧
      c3Row.n = (obsOf (keep_latest_run_only c3Df) c3Row.serial c3Row.channel c3Row.metric).length ∧
      c3Row.mean = listSum (obsOf (keep_latest_run_only c3Df) c3Row.serial c3Row.channel c3Row.metric) /
        ((obsOf (keep_latest_run_only c3Df) c3Row.serial c3Row.channel c3Row.metric).length : ℚ) ∧
      ((obsOf (keep_latest_run_only c3Df) c3Row.serial c3Row.channel c3Row.metric).length < 2 →
        c3Row.varN1 = none) ∧
      (2 ≤ (obsOf (keep_latest_run_only c3Df) c3Row.serial c3Row.channel c3Row.metric).length →
        c3Row.varN1 = some (listSum
          ((obsOf (keep_latest_run_only c3Df) c3Row.serial c3Row.channel c3Row.metric).map fun v =>
            (v - meanOf (obsOf (keep_latest_run_only c3Df) c3Row.serial c3Row.channel c3Row.metric)) ^ 2) /
          (((obsOf (keep_latest_run_only c3Df) c3Row.serial c3Row.channel c3Row.metric).length : ℚ) - 1)))) := by
  have hmem : c3Row ∈ summaryTable (keep_latest_run_only c3Df) := by
    have hL : keep_latest_run_only c3Df = c3Df := by decide
    have hcombos : combosOf c3Df = [("A", some 1, "RAW")] := by decide
    have hobs : obsOf c3Df "A" (some 1) "RAW" = [2, 4] := by decide
    have hmean : meanOf [(2 : ℚ), 4] = 3 := by
      norm_num [meanOf, listSum]
    have hvar : sampleVarN1 [(2 : ℚ), 4] = some 2 := by
      rw [sampleVarN1]
      rw [if_neg (by norm_num)]
      rw [hmean]
      norm_num [listSum]
    rw [hL]
    unfold summaryTable
    rw [hcombos]
    have hrow : c3Row = SummaryRow.mk "A" (some 1) "RAW"
        (meanOf (obsOf c3Df "A" (some 1) "RAW"))
        (sampleVarN1 (obsOf c3Df "A" (some 1) "RAW"))
        (obsOf c3Df "A" (some 1) "RAW").length := by
      rw [hobs, hmean, hvar]
      rfl
    rw [hrow]
    exact List.mem_cons_self _ _
  exact ⟨hmem, (summary_table_spec c3Df).2.2 c3Row hmem⟩

end ECOv2
